import Mathlib

/-!
Verification of the context-retrieval and merge pipeline of the
valkompass-ai chat application (src/lib/knowledge-base-service.ts,
src/lib/gemini-service.ts, src/lib/prompt.ts).

The TypeScript functions are shallowly embedded as Lean functions.
External effects are made explicit:
  * the two Neo4j vector-index queries of `getContextFromKB` become input
    data (`KBData`), with the segment query allowed to fail (`Except`),
    mirroring a thrown driver error;
  * the OpenAI embedding call, the knowledge-base lookup and the Gemini
    chat call inside `getGeminiChatResponse` become `Except`-valued
    parameters, a thrown JS exception being an `.error`;
  * similarity scores (JS numbers) are carried as rationals; no claim
    performs floating-point arithmetic on them, they are only passed
    through and compared;
  * analytics calls (PostHog tracking) and wall-clock timing are outside
    the spec's scope and are not modelled; the `retrievalDuration` field
    is omitted for the same reason;
  * JS truthiness on optional strings and numbers is modelled explicitly
    (`strTruthy`, `jsOrUndefined`, page `0` being falsy).
-/

set_option autoImplicit false

namespace Valkompass

/-- JS truthiness of a `string | undefined | null` value: truthy iff present
and non-empty. -/
def strTruthy : Option String → Bool
  | none => false
  | some s => !(s == "")

/-- The JS idiom `x || undefined` on a `string | undefined | null` value:
a falsy value (absent or empty string) becomes `undefined`. -/
def jsOrUndefined : Option String → Option String
  | none => none
  | some s => if s == "" then none else some s

/-- Structure `RetrievedSegment` (knowledge-base-service.ts).  `segmentPage` is typed
`number` in TS but the code assigns `undefined` for non-pdf segments, so it
is an `Option`; `publicUrl` and `documentSourceType` are optional fields. -/
structure RetrievedSegment where
  documentPath : String
  segmentText : String
  segmentPage : Option Int
  similarityScore : ℚ
  publicUrl : Option String
  documentSourceType : Option String
  deriving DecidableEq, Repr

/-- One entry of `documentsReferenced` (knowledge-base-service.ts). -/
structure DocumentRef where
  path : String
  type : Option String
  publicUrl : Option String
  deriving DecidableEq, Repr

/-- Structure `RetrievedContext` (knowledge-base-service.ts).  The analytics fields are
optional in TS (`totalSegmentsFound?` etc.). -/
structure RetrievedContext where
  topicName : String
  topicDescription : String
  segments : List RetrievedSegment
  totalSegmentsFound : Option Nat
  avgSimilarityScore : Option ℚ
  documentsReferenced : Option (List DocumentRef)
  deriving DecidableEq, Repr

/-- A record returned by the topic vector-index query
(`topic.name`, `topic.description`, `score`). -/
structure TopicRecord where
  name : String
  description : String
  score : ℚ
  deriving DecidableEq, Repr

/-- A raw record returned by the segment vector-index query, before the
`map` in `getContextFromKB` transforms it. -/
structure SegmentRecord where
  documentPath : String
  segmentType : Option String
  segmentText : String
  segmentPage : Option Int
  publicUrl : Option String
  similarityScore : ℚ
  deriving DecidableEq, Repr

/-- The observable outcome of the two Neo4j queries run by
`getContextFromKB` for one query embedding: the topic-index result list and
the segment-index result (which may be a thrown driver error). -/
structure KBData where
  topicRecords : List TopicRecord
  segmentQuery : Except String (List SegmentRecord)

/-- The per-record transformation inside `getContextFromKB`
(knowledge-base-service.ts lines 102-122): page numbers only for pdf
segments, `publicUrl` prefixed by `APP_DOMAIN` for pdf segments when that
environment variable is set (and truthy), otherwise `rawPublicUrl || undefined`. -/
def mkRetrievedSegment (appDomain : Option String) (r : SegmentRecord) : RetrievedSegment :=
  let isPdf : Bool := r.segmentType == some "pdf"
  let pageNumber : Option Int := if isPdf then r.segmentPage else none
  let finalPublicUrl : Option String :=
    if isPdf && strTruthy r.publicUrl && strTruthy appDomain then
      some ((appDomain.getD "") ++ (r.publicUrl.getD ""))
    else
      jsOrUndefined r.publicUrl
  { documentPath := r.documentPath
    documentSourceType := jsOrUndefined r.segmentType
    segmentText := r.segmentText
    segmentPage := pageNumber
    similarityScore := r.similarityScore
    publicUrl := finalPublicUrl }

/-- One step of building the `documentsMap` (knowledge-base-service.ts
lines 132-141): a segment's document is appended only if its path is not
already present. -/
def addDoc (acc : List DocumentRef) (seg : RetrievedSegment) : List DocumentRef :=
  if acc.any (fun d => d.path == seg.documentPath) then acc
  else acc ++ [⟨seg.documentPath, seg.documentSourceType, seg.publicUrl⟩]

/-- The `documentsReferenced` extraction: iterate over the segments, keeping the
first segment seen for each distinct document path, in insertion order
(a JS `Map` iterates in insertion order). -/
def buildDocumentsReferenced (segments : List RetrievedSegment) : List DocumentRef :=
  segments.foldl addDoc []

/-- Function `getContextFromKB` (knowledge-base-service.ts lines 54-186) over the
observable query outcomes.  When the topic query returns no records the
function returns `null` without running the segment query; when the segment
query throws, the error is caught and rethrown as a fixed message; otherwise
the retrieved context is assembled. -/
def getContextFromKB (appDomain : Option String) (kb : KBData) :
    Except String (Option RetrievedContext) :=
  match kb.topicRecords with
  | [] => .ok none
  | topTopic :: _ =>
    match kb.segmentQuery with
    | .error _ => .error "Failed to retrieve context from knowledge base."
    | .ok records =>
      let segments := records.map (mkRetrievedSegment appDomain)
      let totalSegmentsFound := segments.length
      let avgSimilarityScore : ℚ :=
        if segments.length > 0 then
          ((segments.map (fun s => s.similarityScore)).sum) / (segments.length : ℚ)
        else 0
      let documentsReferenced := buildDocumentsReferenced segments
      .ok (some
        { topicName := topTopic.name
          topicDescription := topTopic.description
          segments := segments
          totalSegmentsFound := some totalSegmentsFound
          avgSimilarityScore := some avgSimilarityScore
          documentsReferenced := some documentsReferenced })

/-! ### gemini-service.ts and prompt.ts -/

/-- Constant `SYSTEM_INSTRUCTION` (prompt.ts). -/
def SYSTEM_INSTRUCTION : String :=
  "You are a helpful AI assistant.\nAnswer the user's question based *ONLY* on the provided context.\nWhen citing sources, use the following Markdown format: ([Dokument: Pretty Dokument Name, Sida: pageNumber](SourceURL)). \nYou should prettify the document name from the documentPath, removing all directory and file extensions, and replacing hyphens with spaces and capitalizing the first letter of each word.\nIf a SourceURL is not available for a segment, use the format (Source: [documentPath], Sida: [pageNumber]).\nEnsure that the link text clearly indicates the document and page. Example: ([Dokument: My Report, Sida: 3](/kb-documents/my_report.pdf)) or ([Dokument: Homepage, Sida: 1](https://example.com/article)).\nCRITICAL: THE (SourceURL) MUST ALWAYS BE WHAT IS IN \"publicUrl\" IN THE CONTEXT, NOTHING ELSE. If it is a home website, skip the \"Sida\" part.\nIf the context does not contain the answer, state that you cannot answer based on the provided information.\nOnly respond to questions regarding Swedish politics. If it is not directly related to Swedish politics, say that you cannot answer based on the provided information - but you can reason and infer conclusions from the information that you have.\nYOU ALWAYS ANSWER IN THE LANGUAGE OF THE USER'S QUESTION.\nFormat your responses using Markdown. Use features like headings, lists (bulleted or numbered), bold, italics, code blocks (for code examples if any), and links where appropriate to enhance readability and presentation.\n"

/-- Constant `SYSTEM_INSTRUCTION_NO_CONTEXT` (prompt.ts). -/
def SYSTEM_INSTRUCTION_NO_CONTEXT : String :=
  "You are a helpful AI assistant.\nIf you don't know the answer, say so.\nOnly respond to questions regarding Swedish politics. If it is not directly related to Swedish politics, say that you cannot answer based on the provided information.\nYOU ALWAYS ANSWER IN THE LANGUAGE OF THE USER'S QUESTION.\nFormat your responses using Markdown. Use features like headings, lists (bulleted or numbered), bold, italics, code blocks (for code examples if any), and links where appropriate to enhance readability and presentation.\n"

/-- The JS rendering `seg.segmentPage || 'N/A'`: a number is rendered in
decimal, but both an absent page and page `0` (falsy) render as `N/A`. -/
def pageToString : Option Int → String
  | none => "N/A"
  | some n => if n = 0 then "N/A" else toString n

/-- The `sourceInfo` string of one segment (gemini-service.ts lines 50-52):
the URL form is used when `seg.publicUrl` is truthy (present and non-empty). -/
def sourceInfo (seg : RetrievedSegment) : String :=
  if strTruthy seg.publicUrl then
    "(Source URL: " ++ seg.publicUrl.getD "" ++ ", Document: " ++ seg.documentPath
      ++ ", Page: " ++ pageToString seg.segmentPage ++ ")"
  else
    "(Source Document: " ++ seg.documentPath ++ ", Page: " ++ pageToString seg.segmentPage ++ ")"

/-- One numbered line of the segment list (gemini-service.ts line 53);
`idx` is the 0-based `forEach` index. -/
def segmentLine (idx : Nat) (seg : RetrievedSegment) : String :=
  "  " ++ toString (idx + 1) ++ ". Text: \"" ++ seg.segmentText ++ "\" "
    ++ sourceInfo seg ++ "\n"

/-- Function `formatContextForPrompt` (gemini-service.ts lines 44-57): the topic and
description header, then — when segments exist — the list header and the
`forEach` loop appending one numbered line per segment (`+=` is a left
fold of string concatenation over the indexed segments). -/
def formatContextForPrompt (context : RetrievedContext) : String :=
  let base := "Relevant Topic: " ++ context.topicName ++ "\nDescription: "
    ++ context.topicDescription ++ "\n\n"
  if context.segments.length > 0 then
    context.segments.enum.foldl (fun acc p => acc ++ segmentLine p.1 p.2)
      (base ++ "Relevant Segments from Documents:\n")
  else base

/-- The second, legacy copy of `formatContextForPrompt` concatenated later in
gemini-service.ts (lines 227-240); its body is textually identical to the
current one, read here over the same `RetrievedContext` shape. -/
def formatContextForPromptLegacy (context : RetrievedContext) : String :=
  let base := "Relevant Topic: " ++ context.topicName ++ "\nDescription: "
    ++ context.topicDescription ++ "\n\n"
  if context.segments.length > 0 then
    context.segments.enum.foldl (fun acc p => acc ++ segmentLine p.1 p.2)
      (base ++ "Relevant Segments from Documents:\n")
  else base

/-- Structure `Message` (types; used by gemini-service.ts): the user message text, its
id, and the optional client-side history string. -/
structure Message where
  id : String
  text : String
  history : Option String
  deriving DecidableEq, Repr

/-- The truthiness test `message.history && message.history.trim()`
(gemini-service.ts line 77). -/
def historyTruthy : Option String → Bool
  | none => false
  | some h => !(h == "") && !(h.trim == "")

/-- The `historyContext` string (gemini-service.ts lines 77-79). -/
def historyContext (history : Option String) : String :=
  if historyTruthy history then
    "\nRecent Chat History:\n" ++ history.getD "" ++ "\n\n"
  else ""

/-- The guard `retrievedContext && (retrievedContext.segments.length > 0 ||
retrievedContext.topicName)` (gemini-service.ts line 81): JS truthiness makes
an empty `topicName` string falsy. -/
def contextIsUsable : Option RetrievedContext → Bool
  | none => false
  | some c => (c.segments.length > 0 : Bool) || !(c.topicName == "")

/-- The system instruction chosen by `getGeminiChatResponse`
(gemini-service.ts lines 74-89). -/
def selectedInstruction (ctx : Option RetrievedContext) : String :=
  if contextIsUsable ctx then SYSTEM_INSTRUCTION else SYSTEM_INSTRUCTION_NO_CONTEXT

/-- The `promptForGemini` string (gemini-service.ts lines 81-89). -/
def promptForGemini (message : Message) (ctx : Option RetrievedContext) : String :=
  match ctx with
  | some c =>
    if contextIsUsable (some c) then
      "Context:\n" ++ formatContextForPrompt c ++ historyContext message.history
        ++ "User Question: " ++ message.text ++ "\n\nAnswer:"
    else historyContext message.history ++ message.text
  | none => historyContext message.history ++ message.text

/-- The `fullPrompt` string (gemini-service.ts line 91). -/
def buildFullPrompt (message : Message) (ctx : Option RetrievedContext) : String :=
  selectedInstruction ctx ++ "\n\n" ++ promptForGemini message ctx

/-- A chat-history entry (`chatHistory` element, gemini-service.ts line 42);
`parts` always holds a single text part in this code. -/
structure HistEntry where
  isUser : Bool
  text : String
  deriving DecidableEq, Repr

/-- The history update after a successful Gemini call (gemini-service.ts
lines 130-135): push the user message, push the model reply, then
`splice(0, length - 10)` when the length exceeds 10. -/
def updateChatHistory (h : List HistEntry) (userText modelText : String) : List HistEntry :=
  let pushed := h ++ [⟨true, userText⟩, ⟨false, modelText⟩]
  if pushed.length > 10 then pushed.drop (pushed.length - 10) else pushed

/-- Substring test modelling JS `String.prototype.includes` for a non-empty
needle: `s.splitOn pat` has more than one part iff `pat` occurs in `s`. -/
def strIncludes (s pat : String) : Bool :=
  (s.splitOn pat).length != 1

/-- The fallback string chosen from a caught error's message
(gemini-service.ts lines 156-164). -/
def errorFallback (msg : String) : String :=
  if strIncludes msg "OPENAI_API_KEY" then
    "OpenAI API key is not configured correctly. Please check server logs."
  else if strIncludes msg "Neo4j" then
    "Could not connect to the knowledge base. Please check server logs."
  else
    "Sorry, I encountered an error trying to answer your question. Please try again later."

/-- Function `getGeminiChatResponse` (gemini-service.ts lines 59-201) over explicit
outcomes of its three effectful stages: the OpenAI embedding call, the
knowledge-base lookup, and the Gemini chat call.  A thrown JS exception is an
`.error e` carrying the error message; the `catch` block maps it to one of
three fixed fallback strings and leaves the history untouched.  Returns the
reply string together with the updated `chatHistory`. -/
def getGeminiChatResponse (message : Message) (hist : List HistEntry)
    (embedCall : Except String (List ℚ))
    (kbLookup : List ℚ → Except String (Option RetrievedContext))
    (llmCall : String → Except String String) : String × List HistEntry :=
  match embedCall with
  | .error e => (errorFallback e, hist)
  | .ok queryEmbedding =>
    match kbLookup queryEmbedding with
    | .error e => (errorFallback e, hist)
    | .ok retrievedContext =>
      match llmCall (buildFullPrompt message retrievedContext) with
      | .error e => (errorFallback e, hist)
      | .ok text => (text, updateChatHistory hist message.text text)

/-! ### Merge & deduplicate and query expansion

The merge-and-deduplicate step and the query-expansion step described by the
spec are not present among the shipped source files (only the single-query
retrieval path is), so they are modelled from the spec's own description. -/

/-- The composite segment dedupe key `(segment text, document path)`. -/
def segKey (s : RetrievedSegment) : String × String :=
  (s.segmentText, s.documentPath)

/-- Modelled from the spec: the segment union of the merge step, missing
from the shipped sources — "union segments by a composite (text,
document-path) identity key", "same dedupe key yields exactly one kept
entry, first-seen wins".  `seen` is the set of keys already kept. -/
def dedupeSegmentsAux (seen : List (String × String)) :
    List RetrievedSegment → List RetrievedSegment
  | [] => []
  | s :: rest =>
    if segKey s ∈ seen then dedupeSegmentsAux seen rest
    else s :: dedupeSegmentsAux (segKey s :: seen) rest

/-- Modelled from the spec: first-seen-wins deduplication of a segment
stream by its composite key. -/
def dedupeSegments (segments : List RetrievedSegment) : List RetrievedSegment :=
  dedupeSegmentsAux [] segments

/-- Modelled from the spec: the merge step, missing from the shipped
sources — "inputs = list of nullable retrieval records; output = a single
record or null if all inputs are null; dedupe key = (segment text, document
path); representative topic = first record with both topic name and
description present, else a sentinel \"aggregated\" placeholder."  Field
presence is JS truthiness, i.e. a non-empty string.  The referenced
documents are collected from the merged segment list. -/
def mergeContexts (records : List (Option RetrievedContext)) : Option RetrievedContext :=
  let present := records.filterMap id
  match present with
  | [] => none
  | _ :: _ =>
    let segments := dedupeSegments (present.map (fun r => r.segments)).flatten
    let representative :=
      present.find? (fun r => !(r.topicName == "") && !(r.topicDescription == ""))
    some
      { topicName :=
          match representative with
          | some r => r.topicName
          | none => "Aggregated context"
        topicDescription :=
          match representative with
          | some r => r.topicDescription
          | none => "Aggregated context from multiple queries"
        segments := segments
        totalSegmentsFound := none
        avgSimilarityScore := none
        documentsReferenced := some (buildDocumentsReferenced segments) }

/-- The concatenation, in record order, of the segment lists of the non-null
input records: the stream the merge step deduplicates. -/
def allSegments (records : List (Option RetrievedContext)) : List RetrievedSegment :=
  ((records.filterMap id).map (fun r => r.segments)).flatten

/-- Modelled from the spec: the query-expansion step, missing from the
shipped sources — "turn one user message (+ short chat history) into 1-4
search-query strings via an LLM call, with regex-based JSON extraction from
the model's free-text reply and a fallback to the raw user message on any
parse failure".  The extraction outcome is `none` on any parse failure,
`some qs` when a JSON list of query strings was extracted. -/
def generateSearchQueries (userMessage : String) (parsed : Option (List String)) :
    List String :=
  match parsed with
  | none => [userMessage]
  | some [] => [userMessage]
  | some (q :: qs) => (q :: qs).take 4

/-! ### The spec's wording of `formatContextForPrompt`, for comparison

`claimSourceInfo`/`claimFormat` restate the layout exactly as the claim
words it: the page is rendered as `N/A` only when absent, and the URL form
is used whenever a `publicUrl` is present.  `claimSourceInfoAmended`
/`claimFormatAmended` are the minimally amended wording matching the JS
truthiness of the code (page `0` also renders `N/A`; an empty `publicUrl`
also takes the no-URL form). -/

/-- The claim's wording of the source attribution: page `N/A` exactly when
absent, URL form exactly when a `publicUrl` is present. -/
def claimSourceInfo (seg : RetrievedSegment) : String :=
  match seg.publicUrl with
  | some url =>
    "(Source URL: " ++ url ++ ", Document: " ++ seg.documentPath ++ ", Page: "
      ++ (match seg.segmentPage with | some n => toString n | none => "N/A") ++ ")"
  | none =>
    "(Source Document: " ++ seg.documentPath ++ ", Page: "
      ++ (match seg.segmentPage with | some n => toString n | none => "N/A") ++ ")"

/-- The claim's numbered segment list, entries numbered from `n`. -/
def claimSegmentList (n : Nat) : List RetrievedSegment → String
  | [] => ""
  | s :: rest =>
    "  " ++ toString n ++ ". Text: \"" ++ s.segmentText ++ "\" "
      ++ claimSourceInfo s ++ "\n" ++ claimSegmentList (n + 1) rest

/-- The claim's wording of the whole formatted context: topic line,
description line, then (exactly when segments exist) the numbered list. -/
def claimFormat (context : RetrievedContext) : String :=
  "Relevant Topic: " ++ context.topicName ++ "\nDescription: "
    ++ context.topicDescription ++ "\n\n"
    ++ (if context.segments = [] then ""
        else "Relevant Segments from Documents:\n" ++ claimSegmentList 1 context.segments)

/-- The amended wording of the source attribution: page `N/A` when absent or
`0`, URL form when a non-empty `publicUrl` is present. -/
def claimSourceInfoAmended (seg : RetrievedSegment) : String :=
  match seg.publicUrl with
  | some url =>
    if url = "" then
      "(Source Document: " ++ seg.documentPath ++ ", Page: "
        ++ pageToString seg.segmentPage ++ ")"
    else
      "(Source URL: " ++ url ++ ", Document: " ++ seg.documentPath ++ ", Page: "
        ++ pageToString seg.segmentPage ++ ")"
  | none =>
    "(Source Document: " ++ seg.documentPath ++ ", Page: "
      ++ pageToString seg.segmentPage ++ ")"

/-- The amended numbered segment list, entries numbered from `n`. -/
def claimSegmentListAmended (n : Nat) : List RetrievedSegment → String
  | [] => ""
  | s :: rest =>
    "  " ++ toString n ++ ". Text: \"" ++ s.segmentText ++ "\" "
      ++ claimSourceInfoAmended s ++ "\n" ++ claimSegmentListAmended (n + 1) rest

/-- The amended wording of the whole formatted context. -/
def claimFormatAmended (context : RetrievedContext) : String :=
  "Relevant Topic: " ++ context.topicName ++ "\nDescription: "
    ++ context.topicDescription ++ "\n\n"
    ++ (if context.segments = [] then ""
        else "Relevant Segments from Documents:\n" ++ claimSegmentListAmended 1 context.segments)

/-! ### Properties of the segment deduplication -/

theorem dedupeSegmentsAux_key_mem (l : List RetrievedSegment) :
    ∀ (seen : List (String × String)) (p : String × String),
      p ∈ (dedupeSegmentsAux seen l).map segKey ↔ p ∉ seen ∧ p ∈ l.map segKey := by
  induction l with
  | nil => intro seen p; simp [dedupeSegmentsAux]
  | cons s rest ih =>
    intro seen p
    simp only [dedupeSegmentsAux]
    split
    · rename_i hs
      rw [ih]
      simp only [List.map_cons, List.mem_cons]
      constructor
      · rintro ⟨h1, h2⟩; exact ⟨h1, Or.inr h2⟩
      · rintro ⟨h1, rfl | h2⟩
        · exact absurd hs h1
        · exact ⟨h1, h2⟩
    · rename_i hs
      simp only [List.map_cons, List.mem_cons, ih, List.mem_cons]
      constructor
      · rintro (rfl | ⟨h1, h2⟩)
        · exact ⟨hs, Or.inl rfl⟩
        · exact ⟨fun hc => h1 (Or.inr hc), Or.inr h2⟩
      · rintro ⟨h1, rfl | h2⟩
        · exact Or.inl rfl
        · by_cases hps : p = segKey s
          · exact Or.inl hps
          · exact Or.inr ⟨fun hc => h1 (hc.resolve_left hps), h2⟩

theorem dedupeSegmentsAux_key_nodup (l : List RetrievedSegment) :
    ∀ seen, ((dedupeSegmentsAux seen l).map segKey).Nodup := by
  induction l with
  | nil => intro seen; simp [dedupeSegmentsAux]
  | cons s rest ih =>
    intro seen
    simp only [dedupeSegmentsAux]
    split
    · exact ih seen
    · simp only [List.map_cons, List.nodup_cons]
      refine ⟨fun hc => ?_, ih _⟩
      rw [dedupeSegmentsAux_key_mem] at hc
      exact hc.1 (List.mem_cons_self _ _)

theorem dedupeSegmentsAux_first_seen (l : List RetrievedSegment) :
    ∀ seen s', s' ∈ dedupeSegmentsAux seen l →
      segKey s' ∉ seen ∧ l.find? (fun r => segKey r == segKey s') = some s' := by
  induction l with
  | nil => intro seen s' h; simp [dedupeSegmentsAux] at h
  | cons s rest ih =>
    intro seen s' h
    simp only [dedupeSegmentsAux] at h
    split at h
    · rename_i hs
      obtain ⟨h1, h2⟩ := ih seen s' h
      have hne : (segKey s == segKey s') = false := by
        rw [beq_eq_false_iff_ne]
        intro hc
        exact h1 (hc ▸ hs)
      exact ⟨h1, by rw [List.find?_cons_of_neg _ (by simp [hne]), h2]⟩
    · rename_i hs
      rcases List.mem_cons.mp h with rfl | hmem
      · exact ⟨hs, List.find?_cons_of_pos _ (by simp)⟩
      · obtain ⟨h1, h2⟩ := ih _ s' hmem
        have hne : (segKey s == segKey s') = false := by
          rw [beq_eq_false_iff_ne]
          intro hc
          exact h1 (by rw [hc]; exact List.mem_cons_self _ _)
        refine ⟨fun hc => h1 (List.mem_cons_of_mem _ hc), ?_⟩
        rw [List.find?_cons_of_neg _ (by simp [hne]), h2]

theorem dedupeSegmentsAux_dup_skip (l1 : List RetrievedSegment) :
    ∀ (seen : List (String × String)) (s : RetrievedSegment) (l2 : List RetrievedSegment),
      (segKey s ∈ seen ∨ segKey s ∈ l1.map segKey) →
      dedupeSegmentsAux seen (l1 ++ s :: l2) = dedupeSegmentsAux seen (l1 ++ l2) := by
  induction l1 with
  | nil =>
    intro seen s l2 h
    rcases h with h | h
    · simp [dedupeSegmentsAux, h]
    · simp at h
  | cons a t1 ih =>
    intro seen s l2 h
    simp only [List.cons_append, dedupeSegmentsAux]
    have hmem : segKey s ∈ seen ∨ segKey s = segKey a ∨ segKey s ∈ t1.map segKey := by
      rcases h with h | h
      · exact Or.inl h
      · rw [List.map_cons] at h
        rcases List.mem_cons.mp h with h | h
        · exact Or.inr (Or.inl h)
        · exact Or.inr (Or.inr h)
    split
    · rename_i ha
      apply ih
      rcases hmem with h | h | h
      · exact Or.inl h
      · exact Or.inl (h ▸ ha)
      · exact Or.inr h
    · congr 1
      apply ih
      rcases hmem with h | h | h
      · exact Or.inl (List.mem_cons_of_mem _ h)
      · exact Or.inl (h ▸ List.mem_cons_self _ _)
      · exact Or.inr h

/-- A duplicate segment (one whose key already occurred earlier in the
stream) may be removed without changing the deduplicated result. -/
theorem dedupeSegments_dup_drop (l1 : List RetrievedSegment) (s : RetrievedSegment)
    (l2 : List RetrievedSegment) (h : segKey s ∈ l1.map segKey) :
    dedupeSegments (l1 ++ s :: l2) = dedupeSegments (l1 ++ l2) :=
  dedupeSegmentsAux_dup_skip l1 [] s l2 (Or.inr h)

/-! ### Properties of the referenced-documents extraction -/

theorem addDoc_of_mem (acc : List DocumentRef) (seg : RetrievedSegment)
    (h : seg.documentPath ∈ acc.map (fun d => d.path)) : addDoc acc seg = acc := by
  unfold addDoc
  rw [if_pos]
  rw [List.any_eq_true]
  rcases List.mem_map.mp h with ⟨d, hd, hp⟩
  exact ⟨d, hd, by simp [hp]⟩

theorem addDoc_of_not_mem (acc : List DocumentRef) (seg : RetrievedSegment)
    (h : seg.documentPath ∉ acc.map (fun d => d.path)) :
    addDoc acc seg = acc ++ [⟨seg.documentPath, seg.documentSourceType, seg.publicUrl⟩] := by
  unfold addDoc
  rw [if_neg]
  rw [List.any_eq_true]
  rintro ⟨d, hd, hp⟩
  exact h (List.mem_map.mpr ⟨d, hd, by simpa using hp⟩)

theorem foldl_addDoc_path_mem (l : List RetrievedSegment) :
    ∀ (acc : List DocumentRef) (p : String),
      p ∈ (l.foldl addDoc acc).map (fun d => d.path) ↔
        p ∈ acc.map (fun d => d.path) ∨ p ∈ l.map (fun s => s.documentPath) := by
  induction l with
  | nil => intro acc p; simp
  | cons s rest ih =>
    intro acc p
    rw [List.foldl_cons, ih]
    by_cases hs : s.documentPath ∈ acc.map (fun d => d.path)
    · rw [addDoc_of_mem acc s hs]
      simp only [List.map_cons, List.mem_cons]
      constructor
      · rintro (h | h)
        · exact Or.inl h
        · exact Or.inr (Or.inr h)
      · rintro (h | rfl | h)
        · exact Or.inl h
        · exact Or.inl hs
        · exact Or.inr h
    · rw [addDoc_of_not_mem acc s hs]
      simp only [List.map_append, List.map_cons, List.map_nil, List.mem_append,
        List.mem_cons, List.mem_singleton, List.not_mem_nil, or_false]
      constructor
      · rintro ((h | h) | h)
        · exact Or.inl h
        · exact Or.inr (Or.inl h)
        · exact Or.inr (Or.inr h)
      · rintro (h | h | h)
        · exact Or.inl (Or.inl h)
        · exact Or.inl (Or.inr h)
        · exact Or.inr h

theorem foldl_addDoc_path_nodup (l : List RetrievedSegment) :
    ∀ acc : List DocumentRef, ((acc.map (fun d => d.path)).Nodup) →
      ((l.foldl addDoc acc).map (fun d => d.path)).Nodup := by
  induction l with
  | nil => intro acc h; simpa using h
  | cons s rest ih =>
    intro acc h
    rw [List.foldl_cons]
    apply ih
    by_cases hs : s.documentPath ∈ acc.map (fun d => d.path)
    · rw [addDoc_of_mem acc s hs]; exact h
    · rw [addDoc_of_not_mem acc s hs]
      simp only [List.map_append, List.map_cons, List.map_nil]
      rw [List.nodup_append]
      exact ⟨h, List.nodup_singleton _, by simpa using fun hc => hs hc⟩

theorem foldl_addDoc_mem_cases (l : List RetrievedSegment) :
    ∀ (acc : List DocumentRef) (d : DocumentRef), d ∈ l.foldl addDoc acc →
      d ∈ acc ∨ d.path ∉ acc.map (fun x => x.path) := by
  induction l with
  | nil => intro acc d h; exact Or.inl h
  | cons s rest ih =>
    intro acc d h
    rw [List.foldl_cons] at h
    by_cases hs : s.documentPath ∈ acc.map (fun x => x.path)
    · rw [addDoc_of_mem acc s hs] at h
      exact ih acc d h
    · rw [addDoc_of_not_mem acc s hs] at h
      rcases ih _ d h with hd | hd
      · rcases List.mem_append.mp hd with hd | hd
        · exact Or.inl hd
        · rcases List.mem_singleton.mp hd with rfl
          exact Or.inr hs
      · exact Or.inr fun hc =>
          hd (by rw [List.map_append]; exact List.mem_append.mpr (Or.inl hc))

theorem foldl_addDoc_first (l : List RetrievedSegment) :
    ∀ (acc : List DocumentRef) (d : DocumentRef), d ∈ l.foldl addDoc acc →
      d.path ∉ acc.map (fun x => x.path) →
      ∃ s, l.find? (fun s => s.documentPath == d.path) = some s ∧
        d = ⟨s.documentPath, s.documentSourceType, s.publicUrl⟩ := by
  induction l with
  | nil =>
    intro acc d h hp
    exact absurd (List.mem_map.mpr ⟨d, h, rfl⟩) hp
  | cons s rest ih =>
    intro acc d h hp
    rw [List.foldl_cons] at h
    by_cases hsd : s.documentPath = d.path
    · by_cases hs : s.documentPath ∈ acc.map (fun x => x.path)
      · exact absurd (hsd ▸ hs) hp
      · rw [addDoc_of_not_mem acc s hs] at h
        rcases foldl_addDoc_mem_cases rest _ d h with hd | hd
        · rcases List.mem_append.mp hd with hd | hd
          · exact absurd (List.mem_map.mpr ⟨d, hd, rfl⟩) hp
          · rcases List.mem_singleton.mp hd with rfl
            exact ⟨s, List.find?_cons_of_pos _ (by simp), rfl⟩
        · exfalso
          apply hd
          rw [List.map_append]
          exact List.mem_append.mpr (Or.inr (by simp [hsd]))
    · have hacc : d.path ∉ (addDoc acc s).map (fun x => x.path) := by
        by_cases hs : s.documentPath ∈ acc.map (fun x => x.path)
        · rw [addDoc_of_mem acc s hs]; exact hp
        · rw [addDoc_of_not_mem acc s hs, List.map_append]
          intro hc
          rcases List.mem_append.mp hc with hc | hc
          · exact hp hc
          · have : d.path = s.documentPath := by simpa using hc
            exact hsd this.symm
      obtain ⟨s', hfind, hd⟩ := ih _ d h hacc
      refine ⟨s', ?_, hd⟩
      rw [List.find?_cons_of_neg _ (by simp [hsd]), hfind]

/-! ### Properties of the prompt formatting -/

theorem sourceInfo_eq_claimAmended (seg : RetrievedSegment) :
    sourceInfo seg = claimSourceInfoAmended seg := by
  unfold sourceInfo claimSourceInfoAmended strTruthy
  cases hp : seg.publicUrl with
  | none => simp
  | some url =>
    by_cases hu : url = ""
    · simp [hu]
    · simp [hu]

theorem foldl_segmentLine_eq_claim (l : List RetrievedSegment) :
    ∀ (k : Nat) (acc : String),
      (l.enumFrom k).foldl (fun acc p => acc ++ segmentLine p.1 p.2) acc =
        acc ++ claimSegmentListAmended (k + 1) l := by
  induction l with
  | nil => intro k acc; simp [List.enumFrom, claimSegmentListAmended, String.append_empty]
  | cons s rest ih =>
    intro k acc
    show (rest.enumFrom (k + 1)).foldl (fun acc p => acc ++ segmentLine p.1 p.2)
        (acc ++ segmentLine k s) = acc ++ claimSegmentListAmended (k + 1) (s :: rest)
    rw [ih (k + 1) (acc ++ segmentLine k s)]
    show _ = acc ++ ("  " ++ toString (k + 1) ++ ". Text: \"" ++ s.segmentText ++ "\" "
      ++ claimSourceInfoAmended s ++ "\n" ++ claimSegmentListAmended (k + 1 + 1) rest)
    rw [← sourceInfo_eq_claimAmended]
    unfold segmentLine
    simp only [String.append_assoc]

theorem formatContextForPrompt_eq_claimAmended (context : RetrievedContext) :
    formatContextForPrompt context = claimFormatAmended context := by
  unfold formatContextForPrompt claimFormatAmended
  cases hs : context.segments with
  | nil => simp [String.append_empty]
  | cons s rest =>
    simp only [hs, List.length_cons, List.enum]
    rw [if_pos (Nat.succ_pos _), if_neg (by simp)]
    rw [foldl_segmentLine_eq_claim (s :: rest) 0]
    simp only [String.append_assoc]

/-! ### Concrete sample inputs used by witnesses and counterexamples -/

/-- A sample topic record. -/
def topicEx : TopicRecord :=
  { name := "Skatter", description := "Skattepolitik", score := 1 }

/-- A sample raw segment record (a pdf segment with a relative url). -/
def segRecEx : SegmentRecord :=
  { documentPath := "ps/m.pdf", segmentType := some "pdf", segmentText := "Om skatt",
    segmentPage := some 3, publicUrl := some "/files/m.pdf", similarityScore := 1 }

/-- A retrieved context whose topic name and description are both empty and
whose segment list is empty: non-null, but falsy for the JS guard. -/
def blankContext : RetrievedContext :=
  { topicName := "", topicDescription := "", segments := [],
    totalSegmentsFound := none, avgSimilarityScore := none, documentsReferenced := none }

/-! ### Claim theorems -/

/-- Claim C1: for every query embedding, `getContextFromKB` returns null
exactly when the topic vector-index query yields no records; in that case
the segment lookup is not executed (the result is `.ok none` whatever the
segment query would have produced, so no exception is raised), and when the
lookups succeed a non-null retrieval record carrying the topic name, the
topic description and the similarity-scored segment list is returned. -/
theorem claim_C1_null_iff_no_topic (appDomain : Option String)
    (trs : List TopicRecord) (sq : Except String (List SegmentRecord)) :
    (getContextFromKB appDomain ⟨trs, sq⟩ = .ok none ↔ trs = []) ∧
    (∀ sq' : Except String (List SegmentRecord),
      getContextFromKB appDomain ⟨[], sq'⟩ = .ok none) ∧
    (∀ (t : TopicRecord) (rest : List TopicRecord) (records : List SegmentRecord),
      trs = t :: rest → sq = .ok records →
      ∃ ctx, getContextFromKB appDomain ⟨trs, sq⟩ = .ok (some ctx) ∧
        ctx.topicName = t.name ∧ ctx.topicDescription = t.description ∧
        ctx.segments.map (fun s => s.similarityScore) =
          records.map (fun r => r.similarityScore) ∧
        ctx.segments.length = records.length) := by
  refine ⟨?_, fun sq' => rfl, ?_⟩
  · cases trs with
    | nil => simp [getContextFromKB]
    | cons t rest =>
      cases sq with
      | error e => simp [getContextFromKB]
      | ok records => simp [getContextFromKB]
  · rintro t rest records rfl rfl
    refine ⟨_, rfl, rfl, rfl, ?_, by simp [getContextFromKB]⟩
    show (records.map (mkRetrievedSegment appDomain)).map (fun s => s.similarityScore) = _
    rw [List.map_map]
    rfl

/-- Witness for C1 at a concrete knowledge-base outcome. -/
theorem claim_C1_null_iff_no_topic_witness :
    ∃ ctx, getContextFromKB none ⟨[topicEx], .ok [segRecEx]⟩ = .ok (some ctx) ∧
      ctx.topicName = topicEx.name ∧ ctx.topicDescription = topicEx.description ∧
      ctx.segments.map (fun s => s.similarityScore) =
        [segRecEx].map (fun r => r.similarityScore) ∧
      ctx.segments.length = [segRecEx].length :=
  (claim_C1_null_iff_no_topic none [topicEx] (.ok [segRecEx])).2.2 topicEx [] [segRecEx] rfl rfl

/-- Claim C10: the two textually identical copies of `formatContextForPrompt`
in gemini-service.ts are extensionally equal. -/
theorem claim_C10_format_copies_agree (context : RetrievedContext) :
    formatContextForPrompt context = formatContextForPromptLegacy context := rfl

/-- Counterexample to claim C2 as stated: a non-null retrieved context whose
segment list is empty and whose topic name is the empty string (falsy in JS)
still selects `SYSTEM_INSTRUCTION_NO_CONTEXT`, so the no-context instruction
is not selected exactly on null retrieval. -/
theorem claim_C2_counterexample :
    (some blankContext : Option RetrievedContext) ≠ none ∧
    selectedInstruction (some blankContext) = SYSTEM_INSTRUCTION_NO_CONTEXT ∧
    SYSTEM_INSTRUCTION_NO_CONTEXT ≠ SYSTEM_INSTRUCTION := by
  refine ⟨by simp, rfl, by decide⟩

/-- Claim C2 (amended): `SYSTEM_INSTRUCTION_NO_CONTEXT` is selected exactly
when the retrieved context is null, or has no segments and an empty topic
name; `SYSTEM_INSTRUCTION` is selected otherwise; and the prompt handed to
the chat LLM is exactly the selected system instruction concatenated (with a
blank line) with the context-bearing or plain user prompt. -/
theorem claim_C2_instruction_selection (message : Message) (ctx : Option RetrievedContext) :
    (selectedInstruction ctx = SYSTEM_INSTRUCTION_NO_CONTEXT ↔
      ctx = none ∨ ∃ c, ctx = some c ∧ c.segments = [] ∧ c.topicName = "") ∧
    (selectedInstruction ctx = SYSTEM_INSTRUCTION ↔
      ∃ c, ctx = some c ∧ (c.segments ≠ [] ∨ c.topicName ≠ "")) ∧
    (∀ (hist : List HistEntry) (emb : List ℚ) (llmReply : String → String),
      getGeminiChatResponse message hist (.ok emb) (fun _ => .ok ctx)
          (fun p => .ok (llmReply p)) =
        (llmReply (selectedInstruction ctx ++ "\n\n" ++ promptForGemini message ctx),
         updateChatHistory hist message.text
           (llmReply (selectedInstruction ctx ++ "\n\n" ++ promptForGemini message ctx)))) := by
  have hne : SYSTEM_INSTRUCTION ≠ SYSTEM_INSTRUCTION_NO_CONTEXT := by decide
  refine ⟨?_, ?_, fun hist emb llmReply => rfl⟩
  · cases ctx with
    | none => simp [selectedInstruction, contextIsUsable]
    | some c =>
      unfold selectedInstruction contextIsUsable
      by_cases h1 : c.segments = []
      · by_cases h2 : c.topicName = ""
        · rw [if_neg (by simp [h1, h2])]
          simp only [true_iff]
          exact Or.inr ⟨c, rfl, h1, h2⟩
        · rw [if_pos (by simp [h2])]
          simp only [hne, false_iff]
          rintro (hc | ⟨c', hc, _, hc2⟩)
          · exact Option.noConfusion hc
          · rcases Option.some.inj hc with rfl
            exact h2 hc2
      · rw [if_pos (by simp [List.length_pos.mpr h1])]
        simp only [hne, false_iff]
        rintro (hc | ⟨c', hc, hc1, _⟩)
        · exact Option.noConfusion hc
        · rcases Option.some.inj hc with rfl
          exact h1 hc1
  · cases ctx with
    | none =>
      unfold selectedInstruction contextIsUsable
      simp only [if_neg Bool.false_ne_true, hne.symm, false_iff]
      rintro ⟨c, hc, _⟩
      exact Option.noConfusion hc
    | some c =>
      unfold selectedInstruction contextIsUsable
      by_cases h1 : c.segments = []
      · by_cases h2 : c.topicName = ""
        · rw [if_neg (by simp [h1, h2])]
          simp only [hne.symm, false_iff]
          rintro ⟨c', hc, hor⟩
          rcases Option.some.inj hc with rfl
          rcases hor with hc1 | hc2
          · exact hc1 h1
          · exact hc2 h2
        · rw [if_pos (by simp [h2])]
          simp only [true_iff]
          exact ⟨c, rfl, Or.inr h2⟩
      · rw [if_pos (by simp [List.length_pos.mpr h1])]
        simp only [true_iff]
        exact ⟨c, rfl, Or.inl h1⟩

/-- Claim C3: the rolling chat history is bounded.  After any completed call
to `getGeminiChatResponse` starting from a history of at most 10 entries the
resulting history has at most 10 entries, and the successful-call update
appends the user message and the model reply and keeps exactly the most
recent `min (n+2) 10` entries, dropping the oldest ones. -/
theorem claim_C3_history_bounded (message : Message) (hist : List HistEntry)
    (embedCall : Except String (List ℚ))
    (kbLookup : List ℚ → Except String (Option RetrievedContext))
    (llmCall : String → Except String String)
    (h : hist.length ≤ 10) :
    ((getGeminiChatResponse message hist embedCall kbLookup llmCall).2).length ≤ 10 ∧
    (∀ u t, updateChatHistory hist u t =
        (hist ++ [(⟨true, u⟩ : HistEntry), ⟨false, t⟩]).drop (hist.length + 2 - 10) ∧
      (updateChatHistory hist u t).length = min (hist.length + 2) 10) := by
  have hupd : ∀ u t, updateChatHistory hist u t =
      (hist ++ [(⟨true, u⟩ : HistEntry), ⟨false, t⟩]).drop (hist.length + 2 - 10) ∧
      (updateChatHistory hist u t).length = min (hist.length + 2) 10 := by
    intro u t
    unfold updateChatHistory
    have hlen : (hist ++ [(⟨true, u⟩ : HistEntry), ⟨false, t⟩]).length = hist.length + 2 := by
      simp
    by_cases hgt : (hist ++ [(⟨true, u⟩ : HistEntry), ⟨false, t⟩]).length > 10
    · rw [if_pos hgt, hlen]
      refine ⟨rfl, ?_⟩
      rw [hlen] at hgt
      rw [List.length_drop, hlen]
      omega
    · rw [if_neg hgt]
      rw [hlen] at hgt
      have h0 : hist.length + 2 - 10 = 0 := by omega
      rw [h0, List.drop_zero]
      refine ⟨rfl, ?_⟩
      rw [hlen]
      omega
  refine ⟨?_, hupd⟩
  cases embedCall with
  | error e => exact h
  | ok emb =>
    cases hkb : kbLookup emb with
    | error e => simpa [getGeminiChatResponse, hkb] using h
    | ok ctx =>
      cases hllm : llmCall (buildFullPrompt message ctx) with
      | error e => simpa [getGeminiChatResponse, hkb, hllm] using h
      | ok text =>
        have := (hupd message.text text).2
        simp only [getGeminiChatResponse, hkb, hllm]
        omega

/-- Witness for C3 starting from the empty history. -/
theorem claim_C3_history_bounded_witness :
    ((getGeminiChatResponse ⟨"m1", "Hej", none⟩ [] (.ok [])
        (fun _ => .ok none) (fun _ => .ok "Hej hej")).2).length ≤ 10 ∧
    (∀ u t, updateChatHistory [] u t =
        (([] : List HistEntry) ++ [(⟨true, u⟩ : HistEntry), ⟨false, t⟩]).drop
          ((List.length ([] : List HistEntry)) + 2 - 10) ∧
      (updateChatHistory [] u t).length =
        min ((List.length ([] : List HistEntry)) + 2) 10) :=
  claim_C3_history_bounded ⟨"m1", "Hej", none⟩ [] (.ok [])
    (fun _ => .ok none) (fun _ => .ok "Hej hej") (by decide)

/-- A pdf segment whose page number is `0`: present, yet falsy in JS. -/
def pageZeroSegment : RetrievedSegment :=
  { documentPath := "kb/motion.pdf", segmentText := "Motionstext", segmentPage := some 0,
    similarityScore := 1, publicUrl := none, documentSourceType := some "pdf" }

/-- A retrieved context holding the page-zero segment. -/
def pageZeroContext : RetrievedContext :=
  { topicName := "Motioner", topicDescription := "Riksdagsmotioner",
    segments := [pageZeroSegment],
    totalSegmentsFound := none, avgSimilarityScore := none, documentsReferenced := none }

/-- A segment whose public url is present but empty: falsy in JS. -/
def emptyUrlSegment : RetrievedSegment :=
  { documentPath := "kb/sida.html", segmentText := "Webbtext", segmentPage := some 2,
    similarityScore := 1, publicUrl := some "", documentSourceType := some "html" }

/-- A retrieved context holding the empty-url segment. -/
def emptyUrlContext : RetrievedContext :=
  { topicName := "Webb", topicDescription := "Webbsidor",
    segments := [emptyUrlSegment],
    totalSegmentsFound := none, avgSimilarityScore := none, documentsReferenced := none }

/-- Counterexample to claim C4 as stated: a segment whose page is present
but equal to `0` is rendered with page `N/A` (JS `||` treats `0` as falsy),
not with the page number as the claimed layout demands; and a segment whose
`publicUrl` is present but empty is rendered without the source URL. -/
theorem claim_C4_counterexample :
    formatContextForPrompt pageZeroContext ≠ claimFormat pageZeroContext ∧
    formatContextForPrompt emptyUrlContext ≠ claimFormat emptyUrlContext := by
  refine ⟨by decide, by decide⟩

/-- Claim C4 (amended): `formatContextForPrompt` deterministically produces
the topic-name line and the description line followed, exactly when the
segment list is non-empty, by the list header and entries numbered 1..n in
input order, each quoting the segment text and attributing the document
path, the page — rendered as `N/A` when absent or `0` — and the source URL
when a non-empty `publicUrl` is present. -/
theorem claim_C4_format_layout (context : RetrievedContext) :
    formatContextForPrompt context = claimFormatAmended context :=
  formatContextForPrompt_eq_claimAmended context

/-- Claim C5: in any non-null merge result the kept segments have pairwise
distinct dedupe keys, every key of the concatenated input stream survives,
each kept segment is the first occurrence of its key in the stream
(first-seen wins), and the deduplicated result is unchanged when a segment
whose key already occurred earlier is dropped (hence unchanged under
reordering of duplicate segments). -/
theorem claim_C5_merge_dedupes_by_key (records : List (Option RetrievedContext))
    (c : RetrievedContext) (h : mergeContexts records = some c) :
    ((c.segments.map segKey).Nodup) ∧
    (∀ p, p ∈ c.segments.map segKey ↔ p ∈ (allSegments records).map segKey) ∧
    (∀ s ∈ c.segments,
      (allSegments records).find? (fun r => segKey r == segKey s) = some s) ∧
    (∀ (l1 : List RetrievedSegment) (s : RetrievedSegment) (l2 : List RetrievedSegment),
      segKey s ∈ l1.map segKey →
      dedupeSegments (l1 ++ s :: l2) = dedupeSegments (l1 ++ l2)) := by
  have hseg : c.segments = dedupeSegments (allSegments records) := by
    unfold mergeContexts at h
    cases hp : records.filterMap id with
    | nil => rw [hp] at h; exact absurd h (by simp)
    | cons r0 rs =>
      rw [hp] at h
      rcases Option.some.inj h with rfl
      show dedupeSegments ((r0 :: rs).map (fun r => r.segments)).flatten = _
      unfold allSegments
      rw [hp]
  refine ⟨?_, ?_, ?_, fun l1 s l2 hk => dedupeSegments_dup_drop l1 s l2 hk⟩
  · rw [hseg]
    exact dedupeSegmentsAux_key_nodup _ []
  · intro p
    rw [hseg]
    unfold dedupeSegments
    rw [dedupeSegmentsAux_key_mem]
    simp
  · intro s hs
    rw [hseg] at hs
    exact (dedupeSegmentsAux_first_seen _ [] s hs).2

/-- A segment used twice in the merge witness. -/
def segDup : RetrievedSegment :=
  { documentPath := "p1", segmentText := "text1", segmentPage := none,
    similarityScore := 1, publicUrl := none, documentSourceType := none }

/-- A context containing a duplicated segment. -/
def ctxDup : RetrievedContext :=
  { topicName := "T", topicDescription := "D", segments := [segDup, segDup],
    totalSegmentsFound := none, avgSimilarityScore := none, documentsReferenced := none }

/-- The input record list of the merge witness. -/
def recordsEx : List (Option RetrievedContext) := [some ctxDup]

/-- The merged context of the merge witness: the duplicate collapsed. -/
def mergedEx : RetrievedContext :=
  { topicName := "T", topicDescription := "D", segments := [segDup],
    totalSegmentsFound := none, avgSimilarityScore := none,
    documentsReferenced := some [⟨"p1", none, none⟩] }

/-- Witness for C5 on a record list with a duplicated segment. -/
theorem claim_C5_merge_dedupes_by_key_witness :
    ((mergedEx.segments.map segKey).Nodup) ∧
    (∀ p, p ∈ mergedEx.segments.map segKey ↔ p ∈ (allSegments recordsEx).map segKey) ∧
    (∀ s ∈ mergedEx.segments,
      (allSegments recordsEx).find? (fun r => segKey r == segKey s) = some s) ∧
    (∀ (l1 : List RetrievedSegment) (s : RetrievedSegment) (l2 : List RetrievedSegment),
      segKey s ∈ l1.map segKey →
      dedupeSegments (l1 ++ s :: l2) = dedupeSegments (l1 ++ l2)) :=
  claim_C5_merge_dedupes_by_key recordsEx mergedEx rfl

/-- Counterexample to the second half of claim C6 as stated: merging the
single non-null record whose topic name is empty does not return that name
verbatim — the spec's own representative-topic rule substitutes the
aggregated-placeholder sentinel. -/
theorem claim_C6_counterexample :
    (mergeContexts [some blankContext]).map (fun c => c.topicName) =
      some "Aggregated context" ∧
    blankContext.topicName = "" ∧ "Aggregated context" ≠ "" := by
  exact ⟨rfl, rfl, by decide⟩

/-- Claim C6 (amended): merging an all-null record list yields null, and
merging a list containing a single non-null record whose topic name and
description are both present (non-empty) returns that record's topic name
and description verbatim. -/
theorem claim_C6_merge_null_and_singleton (records : List (Option RetrievedContext))
    (r : RetrievedContext) :
    ((∀ x ∈ records, x = none) → mergeContexts records = none) ∧
    (r.topicName ≠ "" → r.topicDescription ≠ "" →
      ∃ c, mergeContexts [some r] = some c ∧
        c.topicName = r.topicName ∧ c.topicDescription = r.topicDescription) := by
  constructor
  · intro hall
    have hnil : records.filterMap id = [] := by
      rw [List.filterMap_eq_nil_iff]
      intro a ha
      rw [hall a ha]
      rfl
    unfold mergeContexts
    rw [hnil]
  · intro h1 h2
    have hpred : (!(r.topicName == "") && !(r.topicDescription == "")) = true := by
      simp [h1, h2]
    have hfind : List.find?
        (fun x => !(x.topicName == "") && !(x.topicDescription == "")) [r] = some r :=
      List.find?_cons_of_pos _ hpred
    refine ⟨_, rfl, ?_, ?_⟩
    · show (match List.find?
          (fun x => !(x.topicName == "") && !(x.topicDescription == "")) [r] with
        | some x => x.topicName
        | none => "Aggregated context") = r.topicName
      rw [hfind]
    · show (match List.find?
          (fun x => !(x.topicName == "") && !(x.topicDescription == "")) [r] with
        | some x => x.topicDescription
        | none => "Aggregated context from multiple queries") = r.topicDescription
      rw [hfind]

/-- Witness for C6 at concrete inputs. -/
theorem claim_C6_merge_null_and_singleton_witness :
    mergeContexts [none, none] = none ∧
    ∃ c, mergeContexts [some ctxDup] = some c ∧
      c.topicName = ctxDup.topicName ∧ c.topicDescription = ctxDup.topicDescription :=
  ⟨(claim_C6_merge_null_and_singleton [none, none] ctxDup).1 (by simp),
   (claim_C6_merge_null_and_singleton [none, none] ctxDup).2 (by decide) (by decide)⟩

/-- Claim C7: query expansion always yields between 1 and 4 query strings,
and on any parse failure the result contains the raw user message, so the
retrieval step always has at least one query. -/
theorem claim_C7_query_expansion_bounds (userMessage : String)
    (parsed : Option (List String)) :
    1 ≤ (generateSearchQueries userMessage parsed).length ∧
    (generateSearchQueries userMessage parsed).length ≤ 4 ∧
    (parsed = none → userMessage ∈ generateSearchQueries userMessage parsed) := by
  match parsed with
  | none => exact ⟨by simp [generateSearchQueries], by simp [generateSearchQueries],
      fun _ => by simp [generateSearchQueries]⟩
  | some [] => exact ⟨by simp [generateSearchQueries], by simp [generateSearchQueries],
      fun hc => Option.noConfusion hc⟩
  | some (q :: qs) =>
    refine ⟨?_, ?_, fun hc => Option.noConfusion hc⟩
    · show 1 ≤ ((q :: qs).take 4).length
      rw [List.length_take]
      simp
    · show ((q :: qs).take 4).length ≤ 4
      rw [List.length_take]
      omega

/-- Witness for C7 at a failed parse. -/
theorem claim_C7_query_expansion_bounds_witness :
    1 ≤ (generateSearchQueries "Vad tycker partierna om skatter?" none).length ∧
    (generateSearchQueries "Vad tycker partierna om skatter?" none).length ≤ 4 ∧
    "Vad tycker partierna om skatter?" ∈
      generateSearchQueries "Vad tycker partierna om skatter?" none :=
  ⟨(claim_C7_query_expansion_bounds "Vad tycker partierna om skatter?" none).1,
   (claim_C7_query_expansion_bounds "Vad tycker partierna om skatter?" none).2.1,
   (claim_C7_query_expansion_bounds "Vad tycker partierna om skatter?" none).2.2 rfl⟩

/-- Claim C8: `getGeminiChatResponse` never propagates an exception — it
totally returns a string; either all three effectful stages succeeded and
the reply is the model text with the history updated, or the reply is one of
the three fixed fallback strings (chosen from the error message) and the
history is left exactly unchanged. -/
theorem claim_C8_error_fallbacks (message : Message) (hist : List HistEntry)
    (embedCall : Except String (List ℚ))
    (kbLookup : List ℚ → Except String (Option RetrievedContext))
    (llmCall : String → Except String String) :
    (∃ emb ctx text, embedCall = .ok emb ∧ kbLookup emb = .ok ctx ∧
      llmCall (buildFullPrompt message ctx) = .ok text ∧
      getGeminiChatResponse message hist embedCall kbLookup llmCall =
        (text, updateChatHistory hist message.text text)) ∨
    ((getGeminiChatResponse message hist embedCall kbLookup llmCall).2 = hist ∧
      (getGeminiChatResponse message hist embedCall kbLookup llmCall).1 ∈
        ["OpenAI API key is not configured correctly. Please check server logs.",
         "Could not connect to the knowledge base. Please check server logs.",
         "Sorry, I encountered an error trying to answer your question. Please try again later."]) := by
  have hfb : ∀ e, errorFallback e ∈
      ["OpenAI API key is not configured correctly. Please check server logs.",
       "Could not connect to the knowledge base. Please check server logs.",
       "Sorry, I encountered an error trying to answer your question. Please try again later."] := by
    intro e
    unfold errorFallback
    split
    · simp
    · split <;> simp
  cases embedCall with
  | error e => exact Or.inr ⟨rfl, hfb e⟩
  | ok emb =>
    cases hkb : kbLookup emb with
    | error e =>
      refine Or.inr ⟨?_, ?_⟩
      · simp [getGeminiChatResponse, hkb]
      · simpa [getGeminiChatResponse, hkb] using hfb e
    | ok ctx =>
      cases hllm : llmCall (buildFullPrompt message ctx) with
      | error e =>
        refine Or.inr ⟨?_, ?_⟩
        · simp [getGeminiChatResponse, hkb, hllm]
        · simpa [getGeminiChatResponse, hkb, hllm] using hfb e
      | ok text =>
        exact Or.inl ⟨emb, ctx, text, rfl, hkb, hllm, by
          simp [getGeminiChatResponse, hkb, hllm]⟩

/-- Claim C9: in every non-null context returned by `getContextFromKB`, the
referenced-document list has pairwise distinct paths, its paths are exactly
the document paths occurring among the segments, and each entry carries the
type and public url of the first segment (in returned order) with that
path. -/
theorem claim_C9_documents_referenced (appDomain : Option String)
    (trs : List TopicRecord) (sq : Except String (List SegmentRecord))
    (ctx : RetrievedContext) (docs : List DocumentRef)
    (h : getContextFromKB appDomain ⟨trs, sq⟩ = .ok (some ctx))
    (hdocs : ctx.documentsReferenced = some docs) :
    ((docs.map (fun d => d.path)).Nodup) ∧
    (∀ p, p ∈ docs.map (fun d => d.path) ↔
      p ∈ ctx.segments.map (fun s => s.documentPath)) ∧
    (∀ d ∈ docs, ∃ s, ctx.segments.find? (fun s => s.documentPath == d.path) = some s ∧
      d.path = s.documentPath ∧ d.type = s.documentSourceType ∧
      d.publicUrl = s.publicUrl) := by
  have hb : docs = buildDocumentsReferenced ctx.segments := by
    cases trs with
    | nil => simp [getContextFromKB] at h
    | cons t rest =>
      cases sq with
      | error e => simp [getContextFromKB] at h
      | ok records =>
        simp only [getContextFromKB, Except.ok.injEq, Option.some.injEq] at h
        rw [← h] at hdocs
        rw [← h]
        simpa using hdocs.symm
  subst hb
  refine ⟨?_, ?_, ?_⟩
  · exact foldl_addDoc_path_nodup ctx.segments [] (by simp)
  · intro p
    unfold buildDocumentsReferenced
    rw [foldl_addDoc_path_mem]
    simp
  · intro d hd
    obtain ⟨s, hfind, hds⟩ :=
      foldl_addDoc_first ctx.segments [] d hd (by simp)
    exact ⟨s, hfind, by rw [hds], by rw [hds], by rw [hds]⟩

/-- The context produced by `getContextFromKB` on the sample
knowledge-base outcome. -/
def ctxKBEx : RetrievedContext :=
  { topicName := "Skatter", topicDescription := "Skattepolitik",
    segments := [⟨"ps/m.pdf", "Om skatt", some 3, 1, some "/files/m.pdf", some "pdf"⟩],
    totalSegmentsFound := some 1,
    avgSimilarityScore := some (((1 : ℚ) + 0) / ((1 : ℕ) : ℚ)),
    documentsReferenced := some [⟨"ps/m.pdf", some "pdf", some "/files/m.pdf"⟩] }

/-- The referenced-document list of the sample context. -/
def docsEx : List DocumentRef := [⟨"ps/m.pdf", some "pdf", some "/files/m.pdf"⟩]

/-- Witness for C9 on the sample knowledge-base outcome. -/
theorem claim_C9_documents_referenced_witness :
    ((docsEx.map (fun d => d.path)).Nodup) ∧
    (∀ p, p ∈ docsEx.map (fun d => d.path) ↔
      p ∈ ctxKBEx.segments.map (fun s => s.documentPath)) ∧
    (∀ d ∈ docsEx, ∃ s, ctxKBEx.segments.find? (fun s => s.documentPath == d.path) = some s ∧
      d.path = s.documentPath ∧ d.type = s.documentSourceType ∧
      d.publicUrl = s.publicUrl) :=
  claim_C9_documents_referenced none [topicEx] (.ok [segRecEx]) ctxKBEx docsEx rfl rfl

end Valkompass
